import Mathlib

/-!
Verification of the ROUTING_MAPS routing engine against its specification.

The Python source is shallowly embedded: floats are idealised as rationals
(reals where the source applies trigonometric functions), NumPy matrices
become shape-carrying entry functions, fallible functions return a result
type, and the external OR-Tools constraint solver is abstracted by passing
its emitted node sequence as an explicit argument (its guarantees become
hypotheses of the theorems).
-/

set_option maxRecDepth 4000

/-! ## Python numeric helpers

`round(x, n)` in Python rounds half to even (banker's rounding); `int(x)`
truncates toward zero.  Floats are idealised as rationals.
-/

/-- Round a rational to the nearest integer, halves to even
(the semantics of Python's builtin `round`). -/
def roundHalfEven (q : ℚ) : ℤ :=
  let f := ⌊q⌋
  let r := q - (f : ℚ)
  if r < 1/2 then f
  else if 1/2 < r then f + 1
  else if 2 ∣ f then f else f + 1

/-- Python `round(q, ndigits)`: round half to even at `ndigits` decimal places. -/
def pyRound (q : ℚ) (ndigits : ℕ) : ℚ :=
  (roundHalfEven (q * (10 : ℚ) ^ ndigits) : ℚ) / (10 : ℚ) ^ ndigits

/-- Python `int(q)`: truncation toward zero. -/
def pyTrunc (q : ℚ) : ℤ :=
  if 0 ≤ q then ⌊q⌋ else ⌈q⌉

/-! ## TSP single vehicle (src/solvers/tsp_single_vehicle.py)

`solve_open_tsp_dummy` receives an `np.ndarray` cost matrix; we embed the
array as its shape together with an entry function.  The OR-Tools call at
line 258 is abstracted: the cycle it emits (the `full_route` extracted in
lines 267-277, starting and ending at the dummy node) is an explicit
argument of type `Option (List ℕ)` (`none` = no solution found).
-/

/-- A NumPy 2-d array: shape plus entries. -/
structure NpMatrix where
  rows : ℕ
  cols : ℕ
  entry : ℕ → ℕ → ℚ

/-- Successful TSP result fields (subset of the Python result dict that the
claims are about). -/
structure TSPSolution where
  order_ids : List ℤ
  order_idx : List ℕ
  start_id : ℤ
  end_id : ℤ
  total_cost : ℚ
  deriving DecidableEq

/-- Result of `solve_open_tsp_dummy`: the success dict or the `_error_result`
dict carrying the error message. -/
inductive TSPResult where
  | ok (sol : TSPSolution)
  | err (msg : String)
  deriving DecidableEq

/-- The cost loop of lines 288-292: sum of matrix entries over consecutive
pairs of the path. -/
def pathCost (M : NpMatrix) : List ℕ → ℚ
  | [] => 0
  | [_] => 0
  | a :: b :: rest => M.entry a b + pathCost M (b :: rest)

/-- `solve_open_tsp_dummy` (lines 146-323).  `solverRoute` stands for the
cycle emitted by OR-Tools (extracted `full_route`), `none` when
`routing.SolveWithParameters` returns no solution. -/
def solve_open_tsp_dummy (ids : List ℤ) (coords : List (ℚ × ℚ)) (cost_matrix : NpMatrix)
    (solverRoute : Option (List ℕ)) : TSPResult :=
  -- line 183: `if not ids or not coords`
  if ids = [] ∨ coords = [] then .err "Empty IDs or coordinates lists"
  -- line 186: length mismatch
  else if ids.length ≠ coords.length then .err "Length mismatch"
  -- line 189: matrix shape check
  else if ids.length ≠ cost_matrix.rows ∨ cost_matrix.rows ≠ cost_matrix.cols then
    .err "Matrix shape does not match locations"
  else
    let n_locs := ids.length
    -- lines 194-206: trivial single location
    if n_locs = 1 then
      .ok ⟨[ids.headI], [0], ids.headI, ids.headI, 0⟩
    else
      match solverRoute with
      | none => .err "OR-Tools could not find solution"
      | some full_route =>
        -- line 282: remove dummy nodes from the cycle
        let open_path := full_route.filter (fun node => node ≠ n_locs)
        -- line 284: length sanity check
        if open_path.length ≠ n_locs then .err "Invalid path length"
        else
          -- lines 288-299
          let total_cost := pathCost cost_matrix open_path
          let order_ids := open_path.map (fun idx => ids.getD idx 0)
          .ok ⟨order_ids, open_path, order_ids.headI, order_ids.getLastD 0, total_cost⟩

/-- Mapping index lookups over `range l.length` reproduces the list. -/
theorem map_getD_range {α : Type} (l : List α) (d : α) :
    (List.range l.length).map (fun i => l.getD i d) = l := by
  induction l with
  | nil => simp
  | cons a t ih =>
    simp only [List.length_cons, List.range_succ_eq_map, List.map_cons, List.map_map]
    refine congrArg (a :: ·) ?_
    calc (List.range t.length).map ((fun i => (a :: t).getD i d) ∘ Nat.succ)
        = (List.range t.length).map (fun i => t.getD i d) := by
          refine List.map_congr_left ?_
          intro i _
          simp [List.getD]
      _ = t := ih

/-- C1: for a call to `solve_open_tsp_dummy` with N ids, coords of the same
length and an NxN cost matrix, where the solver emitted the cycle
`dummy :: middle ++ [dummy]` visiting every real node exactly once:
on success `order_ids` is a permutation of `ids` with every id exactly once,
`start_id`/`end_id` are its first and last elements, and `total_cost` is the
sum of cost-matrix entries over consecutive pairs of the returned order
(dummy edges excluded); for N = 1 the trivial single-stop solution with cost
0 is returned, and for N = 0 the structured empty-input failure is returned. -/
theorem solve_open_tsp_dummy_contract
    (ids : List ℤ) (coords : List (ℚ × ℚ)) (M : NpMatrix) (middle : List ℕ)
    (hlen : coords.length = ids.length)
    (hrows : M.rows = ids.length) (hcols : M.cols = ids.length)
    (hnodup : ids.Nodup)
    (hmid : middle.Perm (List.range ids.length)) :
    (ids = [] →
      solve_open_tsp_dummy ids coords M (some (ids.length :: middle ++ [ids.length]))
        = .err "Empty IDs or coordinates lists")
    ∧ (ids.length = 1 →
      solve_open_tsp_dummy ids coords M (some (ids.length :: middle ++ [ids.length]))
        = .ok ⟨[ids.headI], [0], ids.headI, ids.headI, 0⟩)
    ∧ (∀ sol,
      solve_open_tsp_dummy ids coords M (some (ids.length :: middle ++ [ids.length]))
        = .ok sol →
      sol.order_ids.Perm ids
      ∧ (∀ a ∈ ids, sol.order_ids.count a = 1)
      ∧ sol.order_ids ≠ []
      ∧ sol.start_id = sol.order_ids.headI
      ∧ sol.end_id = sol.order_ids.getLastD 0
      ∧ sol.order_ids = sol.order_idx.map (fun idx => ids.getD idx 0)
      ∧ sol.total_cost = pathCost M sol.order_idx) := by
  have hperm_ids : ∀ h2 : ids ≠ [],
      (middle.map (fun idx => ids.getD idx 0)).Perm ids := by
    intro _
    have := hmid.map (fun idx => ids.getD idx 0)
    rwa [map_getD_range] at this
  refine ⟨?_, ?_, ?_⟩
  · intro h
    subst h
    simp [solve_open_tsp_dummy]
  · intro h1
    obtain ⟨a, ha⟩ := List.length_eq_one.mp h1
    subst ha
    have hc : coords ≠ [] := by
      intro hc
      simp [hc] at hlen
    simp [solve_open_tsp_dummy, hc, hlen, hrows, hcols]
  · intro sol hsol
    by_cases h0 : ids = []
    · rw [h0] at hsol
      simp [solve_open_tsp_dummy] at hsol
    have hc : coords ≠ [] := by
      intro hcc
      rw [hcc] at hlen
      exact h0 (List.length_eq_zero.mp hlen.symm)
    by_cases h1 : ids.length = 1
    · obtain ⟨a, ha⟩ := List.length_eq_one.mp h1
      rw [ha] at hsol ⊢
      rw [ha] at hlen hrows hcols
      simp only [solve_open_tsp_dummy] at hsol
      rw [if_neg (by simp [hc]), if_neg (by simp [hlen]),
        if_neg (by simp [hrows, hcols]), if_pos (by simp)] at hsol
      cases hsol
      refine ⟨by simp, by simp, by simp, by simp, by simp, by simp, by simp [pathCost]⟩
    · -- main dummy-node branch: N >= 2
      have hmemlt : ∀ x ∈ middle, x < ids.length := by
        intro x hx
        have := hmid.mem_iff.mp hx
        exact List.mem_range.mp this
      have hfilter : (ids.length :: middle ++ [ids.length]).filter
          (fun node => node ≠ ids.length) = middle := by
        have hmidf : middle.filter (fun node => decide (node ≠ ids.length)) = middle := by
          refine List.filter_eq_self.mpr ?_
          intro x hx
          simpa using Nat.ne_of_lt (hmemlt x hx)
        rw [show (ids.length :: middle ++ [ids.length])
            = ([ids.length] ++ middle) ++ [ids.length] by simp,
          List.filter_append, List.filter_append, hmidf]
        simp
      have hmlen : middle.length = ids.length := by
        simpa using hmid.length_eq
      simp only [solve_open_tsp_dummy] at hsol
      rw [if_neg (by simp [h0, hc]), if_neg (by simp [hlen]),
        if_neg (by simp [hrows, hcols]), if_neg h1] at hsol
      simp only [hfilter] at hsol
      rw [if_neg (by simp [hmlen])] at hsol
      cases hsol
      have hperm := hperm_ids h0
      refine ⟨hperm, ?_, ?_, rfl, rfl, rfl, rfl⟩
      · intro a ha
        rw [hperm.count_eq]
        exact List.count_eq_one_of_mem hnodup ha
      · intro hempty
        have : middle = [] := by
          simpa using congrArg List.length hempty
        rw [this] at hmlen
        exact h0 (List.length_eq_zero.mp hmlen.symm)

/-- C1 witness: the contract applied to a concrete 2-stop instance. -/
theorem solve_open_tsp_dummy_contract_witness :
    ([(0 : ℚ × ℚ), (1, 1)].length = [(7 : ℤ), 9].length
      ∧ ([(7 : ℤ), 9]).Nodup ∧ ([1, 0] : List ℕ).Perm (List.range 2))
    ∧ (∀ sol,
      solve_open_tsp_dummy [(7 : ℤ), 9] [(0, 0), (1, 1)] ⟨2, 2, fun _ _ => 5⟩
        (some (2 :: [1, 0] ++ [2])) = .ok sol →
      sol.order_ids.Perm [(7 : ℤ), 9]) := by
  refine ⟨⟨by decide, by decide, by decide⟩, ?_⟩
  intro sol hsol
  exact ((solve_open_tsp_dummy_contract [(7 : ℤ), 9] [(0, 0), (1, 1)]
    ⟨2, 2, fun _ _ => 5⟩ [1, 0] (by decide) (by decide) (by decide) (by decide)
    (by decide)).2.2 sol hsol).1

/-! ## Open VRP solver (src/vrp/solver/or_tools_openvrp.py)

The scenario dict, the extracted routes and the KPI dict become structures.
The OR-Tools `assignment` is abstracted by the per-vehicle node walks it
encodes (the nodes visited from `routing.Start(v)` up to the end node),
passed explicitly; `none` stands for "no assignment found".
`balance_std_stops` is `variance ** 0.5`, hence a real number.
-/

/-- One entry of `scenario['stops']`. -/
structure VrpStop where
  id_contacto : String
  lat : ℚ
  lon : ℚ
  duracion_min : Option ℚ
  deriving DecidableEq

/-- One entry of `scenario['vehicles']`. -/
structure VrpVehicle where
  id_vehiculo : String
  max_stops : Option ℕ
  deriving DecidableEq

/-- `scenario['rules']`. -/
structure VrpRules where
  max_stops_per_vehicle : ℕ
  balance_load : Bool
  cost_weights_time : ℚ
  cost_weights_distance : ℚ
  deriving DecidableEq

/-- The `scenario` dict of `solve_open_vrp`. -/
structure VrpScenario where
  stops : List VrpStop
  vehicles : List VrpVehicle
  rules : VrpRules
  start_id : Option String
  deriving DecidableEq

/-- One route dict of the solution. -/
structure VrpRoute where
  vehicle_id : String
  sequence : List String
  served : ℕ
  km : ℚ
  min : ℚ
  deriving DecidableEq

/-- The `kpis` dict (lines 389-394). -/
structure VrpKpis where
  served_pct : ℚ
  km_total : ℚ
  min_total : ℚ
  balance_std_stops : ℝ

/-- The solution dict of `solve_open_vrp`. -/
structure VrpSolution where
  routes : List VrpRoute
  unserved : List String
  kpis : VrpKpis

/-- Python `round(x, n)` on a real argument (used for `variance ** 0.5`). -/
noncomputable def roundHalfEvenR (x : ℝ) : ℤ :=
  let f := ⌊x⌋
  let r := x - (f : ℝ)
  if r < 1/2 then f
  else if 1/2 < r then f + 1
  else if 2 ∣ f then f else f + 1

/-- Python `round(x, ndigits)` over the reals. -/
noncomputable def pyRoundR (x : ℝ) (ndigits : ℕ) : ℝ :=
  (roundHalfEvenR (x * (10 : ℝ) ^ ndigits) : ℝ) / (10 : ℝ) ^ ndigits

/-- Row-major lookup in a list-of-lists matrix (`matrix[i][j]`). -/
def matEntry (m : List (List ℚ)) (i j : ℕ) : ℚ :=
  (m.getD i []).getD j 0

/-- `_reorder_route_with_start_id` (lines 318-326):
`sequence[start_idx:] + sequence[:start_idx]` at the first index of
`start_id`, identity when `start_id` is absent. -/
def reorder_route_with_start_id (sequence : List String) (start_id : String) : List String :=
  if start_id ∈ sequence then
    let start_idx := sequence.indexOf start_id
    sequence.drop start_idx ++ sequence.take start_idx
  else sequence

/-- Sum of `m[a][b]` over consecutive pairs of a list of indices
(the accumulation loops of `_calculate_route_metrics` lines 345-353). -/
def consecutivePairSum (m : ℕ → ℕ → ℚ) : List ℕ → ℚ
  | [] => 0
  | [_] => 0
  | a :: b :: rest => m a b + consecutivePairSum m (b :: rest)

/-- The dict comprehension `{s['id_contacto']: i for i, s in enumerate(stops)}`
(line 339): the last index with a given id wins. -/
def id_to_idx (stops : List VrpStop) (id : String) : ℕ :=
  stops.enum.foldl (fun acc p => if p.2.id_contacto = id then p.1 else acc) 0

/-- The service-time loop of lines 356-362: for each stop id of the sequence,
the first matching stop contributes `duracion_min` (default 8) times 60. -/
def serviceSeconds (sequence : List String) (stops : List VrpStop) : ℚ :=
  sequence.foldl (fun acc sid =>
    match stops.find? (fun s => s.id_contacto = sid) with
    | some s => acc + (s.duracion_min.getD 8) * 60
    | none => acc) 0

/-- `_calculate_route_metrics` (lines 329-367): `(km, min)` rounded to 2 and
1 decimals respectively. -/
def calculate_route_metrics (sequence : List String) (stops : List VrpStop)
    (seconds_matrix meters_matrix : ℕ → ℕ → ℚ) : ℚ × ℚ :=
  if sequence.length ≤ 1 then (0, 0)
  else
    let idxs := sequence.map (id_to_idx stops)
    let total_seconds := consecutivePairSum seconds_matrix idxs
    let total_meters := consecutivePairSum meters_matrix idxs
    let service_seconds := serviceSeconds sequence stops
    (pyRound (total_meters / 1000) 2, pyRound ((total_seconds + service_seconds) / 60) 1)

/-- The per-vehicle walk restricted to real nodes and mapped to stop ids
(lines 271-279: nodes `< n_stops` are appended as `stop_ids[node]`). -/
def rawSequence (stops : List VrpStop) (n_stops : ℕ) (walk : List ℕ) : List String :=
  (walk.filter (fun node => node < n_stops)).map
    (fun node => (stops.map (fun s => s.id_contacto)).getD node "")

/-- Lines 283-285: `if start_id and start_id in route_sequence`, re-root the
sequence (a falsy `start_id` - absent or empty - leaves it unchanged). -/
def applyStartId (route_sequence : List String) (start_id : Option String) : List String :=
  match start_id with
  | some sid =>
    if sid ≠ "" ∧ sid ∈ route_sequence
    then reorder_route_with_start_id route_sequence sid
    else route_sequence
  | none => route_sequence

/-- The route-extraction loop of `_extract_solution` (lines 265-299), one
`(walk, vehicle)` pair per vehicle: real nodes (< `n_stops`) are kept, the
sequence is mapped to stop ids, empty routes are dropped, `start_id`
re-rooting is applied, then the metrics are computed on that sequence. -/
def extract_routes (pairs : List (List ℕ × VrpVehicle)) (stops : List VrpStop)
    (seconds_matrix meters_matrix : ℕ → ℕ → ℚ) (n_stops : ℕ)
    (start_id : Option String) : List VrpRoute :=
  pairs.filterMap (fun p =>
    if rawSequence stops n_stops p.1 = [] then none
    else some ⟨p.2.id_vehiculo,
      applyStartId (rawSequence stops n_stops p.1) start_id,
      (applyStartId (rawSequence stops n_stops p.1) start_id).length,
      (calculate_route_metrics (applyStartId (rawSequence stops n_stops p.1) start_id)
        stops seconds_matrix meters_matrix).1,
      (calculate_route_metrics (applyStartId (rawSequence stops n_stops p.1) start_id)
        stops seconds_matrix meters_matrix).2⟩)

/-- `_calculate_global_kpis` (lines 370-394). -/
noncomputable def calculate_global_kpis (routes : List VrpRoute) (total_stops : ℕ) : VrpKpis :=
  let total_served : ℕ := (routes.map (fun r => r.served)).sum
  let served_pct : ℚ := if 0 < total_stops then (total_served : ℚ) / total_stops * 100 else 0
  let km_total : ℚ := (routes.map (fun r => r.km)).sum
  let min_total : ℚ := (routes.map (fun r => r.min)).sum
  let stops_per_vehicle : List ℚ := routes.map (fun r => (r.served : ℚ))
  let balance_std_stops : ℝ :=
    if 1 < stops_per_vehicle.length then
      let mean := stops_per_vehicle.sum / (stops_per_vehicle.length : ℚ)
      let variance := ((stops_per_vehicle.map (fun x => (x - mean) ^ 2)).sum)
        / (stops_per_vehicle.length : ℚ)
      Real.sqrt (variance : ℝ)
    else 0
  ⟨pyRound served_pct 1, pyRound km_total 2, pyRound min_total 1, pyRoundR balance_std_stops 2⟩

/-- `_extract_solution` (lines 253-315): routes from the per-vehicle walks,
`unserved = [sid for sid in stop_ids if sid not in served_ids]` where
`served_ids` is the set union of the route sequences (membership in the
concatenation is the same predicate), and the global KPIs. -/
noncomputable def extract_solution (vehicleNodes : List (List ℕ)) (stops : List VrpStop)
    (vehicles : List VrpVehicle) (seconds_matrix meters_matrix : ℕ → ℕ → ℚ)
    (n_stops : ℕ) (start_id : Option String) : VrpSolution :=
  ⟨extract_routes (vehicleNodes.zip vehicles) stops
      seconds_matrix meters_matrix n_stops start_id,
   (stops.map (fun s => s.id_contacto)).filter (fun sid =>
     ¬ sid ∈ ((extract_routes (vehicleNodes.zip vehicles) stops
        seconds_matrix meters_matrix n_stops start_id).map (fun r => r.sequence)).flatten),
   calculate_global_kpis (extract_routes (vehicleNodes.zip vehicles) stops
      seconds_matrix meters_matrix n_stops start_id) stops.length⟩

/-- `_empty_solution` (lines 397-410). -/
def empty_solution (unserved : List String := []) : VrpSolution :=
  ⟨[], unserved, ⟨0, 0, 0, 0⟩⟩

/-- `solve_open_vrp` (lines 18-187).  `assignment` abstracts the OR-Tools
search outcome: `none` when `SolveWithParameters` finds nothing, otherwise
the per-vehicle node walks. -/
noncomputable def solve_open_vrp (scenario : VrpScenario)
    (seconds_matrix meters_matrix : List (List ℚ))
    (assignment : Option (List (List ℕ))) : Except String VrpSolution :=
  let stops := scenario.stops
  let vehicles := scenario.vehicles
  let n_stops := stops.length
  let n_vehicles := vehicles.length
  -- line 71: dimension validation (raises ValueError)
  if n_stops ≠ seconds_matrix.length ∨ n_stops ≠ meters_matrix.length then
    .error "Dimensiones inconsistentes"
  -- line 74: no stops
  else if n_stops = 0 then .ok (empty_solution [])
  -- line 77: no vehicles
  else if n_vehicles = 0 then .ok (empty_solution (stops.map (fun s => s.id_contacto)))
  else
    match assignment with
    | none => .ok (empty_solution (stops.map (fun s => s.id_contacto)))
    | some vehicleNodes =>
      .ok (extract_solution vehicleNodes stops vehicles
        (matEntry seconds_matrix) (matEntry meters_matrix) n_stops scenario.start_id)

/-- Re-rooting a route is a permutation of it. -/
theorem reorder_route_with_start_id_perm (seq : List String) (sid : String) :
    (reorder_route_with_start_id seq sid).Perm seq := by
  unfold reorder_route_with_start_id
  by_cases h : sid ∈ seq
  · rw [if_pos h]
    have hp := @List.perm_append_comm String (seq.drop (seq.indexOf sid))
      (seq.take (seq.indexOf sid))
    rwa [List.take_append_drop] at hp
  · rw [if_neg h]

/-- `applyStartId` permutes the sequence. -/
theorem applyStartId_perm (seq : List String) (start_id : Option String) :
    (applyStartId seq start_id).Perm seq := by
  cases start_id with
  | none => exact List.Perm.refl _
  | some sid =>
    show (if sid ≠ "" ∧ sid ∈ seq then reorder_route_with_start_id seq sid else seq).Perm seq
    by_cases hc : sid ≠ "" ∧ sid ∈ seq
    · rw [if_pos hc]
      exact reorder_route_with_start_id_perm _ _
    · rw [if_neg hc]

/-- The concatenation of the extracted route sequences is a permutation of the
concatenation of the raw per-vehicle sequences (empty routes are dropped and
re-rooting permutes within a route). -/
theorem extract_routes_flatten_perm (pairs : List (List ℕ × VrpVehicle))
    (stops : List VrpStop) (secM metM : ℕ → ℕ → ℚ) (n_stops : ℕ)
    (start_id : Option String) :
    (((extract_routes pairs stops secM metM n_stops start_id).map
        (fun r => r.sequence)).flatten).Perm
      ((pairs.map (fun p => rawSequence stops n_stops p.1)).flatten) := by
  induction pairs with
  | nil => simp [extract_routes]
  | cons p rest ih =>
    rw [extract_routes, List.filterMap_cons]
    by_cases hseq : rawSequence stops n_stops p.1 = []
    · rw [if_pos hseq, ← extract_routes]
      simp only [List.map_cons, List.flatten_cons, hseq, List.nil_append]
      exact ih
    · rw [if_neg hseq, ← extract_routes]
      simp only [List.map_cons, List.flatten_cons]
      exact List.Perm.append (applyStartId_perm _ _) ih

/-- Every extracted route records its own (already re-rooted) sequence:
`served` is its length and `km`/`min` are `_calculate_route_metrics` of it;
the sequence is non-empty. -/
theorem extract_routes_mem (pairs : List (List ℕ × VrpVehicle))
    (stops : List VrpStop) (secM metM : ℕ → ℕ → ℚ) (n_stops : ℕ)
    (start_id : Option String) (r : VrpRoute)
    (hr : r ∈ extract_routes pairs stops secM metM n_stops start_id) :
    r.served = r.sequence.length
    ∧ r.km = (calculate_route_metrics r.sequence stops secM metM).1
    ∧ r.min = (calculate_route_metrics r.sequence stops secM metM).2
    ∧ r.sequence ≠ [] := by
  rw [extract_routes, List.mem_filterMap] at hr
  obtain ⟨p, hp, hfp⟩ := hr
  by_cases hseq : rawSequence stops n_stops p.1 = []
  · rw [if_pos hseq] at hfp
    cases hfp
  · rw [if_neg hseq] at hfp
    cases hfp
    refine ⟨rfl, rfl, rfl, ?_⟩
    intro hnil
    have hperm := applyStartId_perm (rawSequence stops n_stops p.1) start_id
    have hnil2 : applyStartId (rawSequence stops n_stops p.1) start_id = [] := hnil
    rw [hnil2] at hperm
    exact hseq (List.Perm.nil_eq hperm).symm

/-- C10: `solve_open_vrp` settles empty problems before the solver runs:
with zero stops (and matching 0x0 matrices) it returns the empty solution
(no routes, empty unserved, all KPIs zero), and with stops but zero
vehicles it returns the empty solution whose unserved list is exactly the
input stop ids; in both cases the result is the same for every solver
outcome, so the constraint solver is never consulted. -/
theorem solve_open_vrp_empty_cases (scenario : VrpScenario)
    (seconds_matrix meters_matrix : List (List ℚ))
    (hsec : seconds_matrix.length = scenario.stops.length)
    (hmet : meters_matrix.length = scenario.stops.length) :
    (scenario.stops = [] →
      ∀ assignment, solve_open_vrp scenario seconds_matrix meters_matrix assignment
        = .ok ⟨[], [], ⟨0, 0, 0, 0⟩⟩)
    ∧ (scenario.vehicles = [] → scenario.stops ≠ [] →
      ∀ assignment, solve_open_vrp scenario seconds_matrix meters_matrix assignment
        = .ok ⟨[], scenario.stops.map (fun s => s.id_contacto), ⟨0, 0, 0, 0⟩⟩) := by
  constructor
  · intro h assignment
    rw [solve_open_vrp.eq_def]
    rw [if_neg (by simp [h, hsec, hmet])]
    rw [if_pos (by simp [h])]
    rfl
  · intro hveh hstops assignment
    rw [solve_open_vrp.eq_def]
    rw [if_neg (by simp [hsec, hmet])]
    rw [if_neg (by simpa using hstops)]
    rw [if_pos (by simp [hveh])]
    rfl

/-- C10 witness: one stop, no vehicles, 1x1 matrices. -/
theorem solve_open_vrp_empty_cases_witness :
    (([[0]] : List (List ℚ)).length = 1 ∧ ([⟨"A", 0, 0, none⟩] : List VrpStop) ≠ [])
    ∧ solve_open_vrp ⟨[⟨"A", 0, 0, none⟩], [], ⟨40, true, 7/10, 3/10⟩, none⟩
        [[0]] [[0]] none = .ok ⟨[], ["A"], ⟨0, 0, 0, 0⟩⟩ := by
  refine ⟨⟨by decide, by simp⟩, ?_⟩
  exact (solve_open_vrp_empty_cases ⟨[⟨"A", 0, 0, none⟩], [], ⟨40, true, 7/10, 3/10⟩, none⟩
    [[0]] [[0]] (by simp) (by simp)).2 rfl (by simp) none

/-- Index lookup with default is injective below the length of a
duplicate-free list. -/
theorem getD_inj_of_nodup {l : List String} (h : l.Nodup) {i j : ℕ}
    (hi : i < l.length) (hj : j < l.length) (heq : l.getD i "" = l.getD j "") : i = j := by
  rw [l.getD_eq_getElem "" hi, l.getD_eq_getElem "" hj] at heq
  exact (List.Nodup.getElem_inj_iff h).mp heq

/-- C2 (amended): for every solution extracted from solver walks whose real
nodes are globally duplicate-free, each input stop id appears in at most one
route and at most once within it (the concatenation of route sequences is
duplicate-free), the served and unserved id sets are disjoint and together
are exactly the input stop ids, and `served_pct` is 100 times the served
fraction rounded half-to-even to one decimal place. -/
theorem extract_solution_partition
    (vehicleNodes : List (List ℕ)) (stops : List VrpStop) (vehicles : List VrpVehicle)
    (secM metM : ℕ → ℕ → ℚ) (start_id : Option String)
    (hlen : vehicleNodes.length = vehicles.length)
    (hnodup : (stops.map (fun s => s.id_contacto)).Nodup)
    (hnodes : ((vehicleNodes.map (fun ns =>
      ns.filter (fun node => node < stops.length))).flatten).Nodup) :
    ∀ sol, sol = extract_solution vehicleNodes stops vehicles secM metM
        stops.length start_id →
      ((sol.routes.map (fun r => r.sequence)).flatten.Nodup
      ∧ (∀ sid, sid ∈ stops.map (fun s => s.id_contacto) ↔
          (sid ∈ (sol.routes.map (fun r => r.sequence)).flatten ∨ sid ∈ sol.unserved))
      ∧ (∀ sid, sid ∈ sol.unserved →
          ¬ sid ∈ (sol.routes.map (fun r => r.sequence)).flatten)
      ∧ sol.kpis.served_pct
          = pyRound (((sol.routes.map (fun r => r.sequence)).flatten.length : ℚ)
              / (stops.length : ℚ) * 100) 1) := by
  intro sol hsol
  subst hsol
  set n := stops.length with hn
  set pairs := vehicleNodes.zip vehicles with hpairs
  set routes := extract_routes pairs stops secM metM n start_id with hroutes
  have hsolroutes : (extract_solution vehicleNodes stops vehicles secM metM n
      start_id).routes = routes := rfl
  have hsolunserved : (extract_solution vehicleNodes stops vehicles secM metM n
      start_id).unserved = (stops.map (fun s => s.id_contacto)).filter (fun sid =>
        ¬ sid ∈ (routes.map (fun r => r.sequence)).flatten) := rfl
  have hsolkpis : (extract_solution vehicleNodes stops vehicles secM metM n
      start_id).kpis = calculate_global_kpis routes n := rfl
  rw [hsolroutes, hsolunserved, hsolkpis]
  -- the raw node pool and its image under the id lookup
  set N := (vehicleNodes.map (fun ns => ns.filter (fun node => node < n))).flatten with hN
  have hfst : pairs.map (fun p => p.1) = vehicleNodes := by
    rw [hpairs]
    exact List.map_fst_zip vehicleNodes vehicles (le_of_eq hlen)
  have hraw : (pairs.map (fun p => rawSequence stops n p.1)).flatten
      = N.map (fun node => (stops.map (fun s => s.id_contacto)).getD node "") := by
    have h1 : pairs.map (fun p => rawSequence stops n p.1)
        = (pairs.map (fun p => p.1.filter (fun node => node < n))).map
            (List.map (fun node => (stops.map (fun s => s.id_contacto)).getD node "")) := by
      simp [rawSequence, List.map_map]
    rw [h1, ← List.map_flatten]
    have h2 : (pairs.map (fun p => p.1.filter (fun node => node < n)))
        = vehicleNodes.map (fun ns => ns.filter (fun node => node < n)) := by
      rw [← hfst, List.map_map]
      rfl
    rw [h2]
  have hperm : ((routes.map (fun r => r.sequence)).flatten).Perm
      (N.map (fun node => (stops.map (fun s => s.id_contacto)).getD node "")) := by
    rw [← hraw, hroutes]
    exact extract_routes_flatten_perm pairs stops secM metM n start_id
  have hNlt : ∀ x ∈ N, x < n := by
    intro x hx
    rw [hN] at hx
    rw [List.mem_flatten] at hx
    obtain ⟨l, hl, hxl⟩ := hx
    rw [List.mem_map] at hl
    obtain ⟨ns, _, hns⟩ := hl
    rw [← hns] at hxl
    exact of_decide_eq_true (List.mem_filter.mp hxl).2
  have hmapnodup : (N.map (fun node =>
      (stops.map (fun s => s.id_contacto)).getD node "")).Nodup := by
    refine List.Nodup.map_on ?_ hnodes
    intro x hx y hy hxy
    have hxn : x < (stops.map (fun s => s.id_contacto)).length := by
      simpa using hNlt x hx
    have hyn : y < (stops.map (fun s => s.id_contacto)).length := by
      simpa using hNlt y hy
    exact getD_inj_of_nodup hnodup hxn hyn hxy
  have hsub : ∀ sid, sid ∈ (routes.map (fun r => r.sequence)).flatten →
      sid ∈ stops.map (fun s => s.id_contacto) := by
    intro sid hsid
    have := hperm.mem_iff.mp hsid
    rw [List.mem_map] at this
    obtain ⟨x, hxN, hx⟩ := this
    have hxn : x < (stops.map (fun s => s.id_contacto)).length := by
      simpa using hNlt x hxN
    rw [← hx, List.getD_eq_getElem _ "" hxn]
    exact List.getElem_mem hxn
  refine ⟨hperm.nodup_iff.mpr hmapnodup, ?_, ?_, ?_⟩
  · intro sid
    constructor
    · intro hmem
      by_cases hserved : sid ∈ (routes.map (fun r => r.sequence)).flatten
      · exact Or.inl hserved
      · refine Or.inr ?_
        rw [List.mem_filter]
        exact ⟨hmem, by simpa using hserved⟩
    · intro h
      cases h with
      | inl h => exact hsub sid h
      | inr h => exact (List.mem_filter.mp h).1
  · intro sid hsid
    have := (List.mem_filter.mp hsid).2
    simpa using this
  · -- served_pct
    have hserved_nat : (routes.map (fun r => r.served)).sum
        = (routes.map (fun r => r.sequence)).flatten.length := by
      rw [List.length_flatten, List.map_map]
      refine congrArg List.sum ?_
      refine List.map_congr_left ?_
      intro r hr
      simpa using (extract_routes_mem pairs stops secM metM n start_id r (hroutes ▸ hr)).1
    rw [calculate_global_kpis]
    by_cases hn0 : 0 < n
    · simp only [if_pos hn0]
      rw [hserved_nat]
    · simp only [if_neg hn0]
      have hzero : n = 0 := Nat.eq_zero_of_not_pos hn0
      rw [hzero]
      norm_num

/-- Three concrete stops used to evaluate the extraction on explicit inputs. -/
def exStops : List VrpStop := [⟨"A", 0, 0, none⟩, ⟨"B", 0, 0, none⟩, ⟨"C", 0, 0, none⟩]

/-- One concrete vehicle. -/
def exVehicles : List VrpVehicle := [⟨"V1", some 40⟩]

/-- An all-zero matrix function. -/
def exZero : ℕ → ℕ → ℚ := fun _ _ => 0

/-- A concrete asymmetric meters matrix. -/
def exMet : ℕ → ℕ → ℚ := fun i j =>
  if i = 0 ∧ j = 1 then 1000
  else if i = 1 ∧ j = 2 then 1000
  else if i = 2 ∧ j = 0 then 100000
  else 0

/-- C2 counterexample: serving 1 of 3 stops reports `served_pct = 33.3`,
which is not equal to `100·1/3` as the claim states it. -/
theorem extract_solution_served_pct_cex :
    ((extract_solution [[3, 0]] exStops exVehicles exZero exZero 3 none).routes.map
      (fun r => r.sequence)).flatten.length = 1
    ∧ exStops.length = 3
    ∧ (extract_solution [[3, 0]] exStops exVehicles exZero exZero 3 none).kpis.served_pct
        = 333/10
    ∧ ((333/10 : ℚ) ≠ 100 * 1 / 3) := by
  refine ⟨?_, rfl, ?_, by norm_num⟩
  · simp [extract_solution, extract_routes, rawSequence, applyStartId, exStops, exVehicles]
  · simp [extract_solution, extract_routes, rawSequence, applyStartId,
      calculate_route_metrics, calculate_global_kpis, exStops, exVehicles]
    norm_num [pyRound, roundHalfEven]

/-- C2 witness: the partition theorem applied to a concrete extraction. -/
theorem extract_solution_partition_witness :
    (([[3, 0]] : List (List ℕ)).length = exVehicles.length
      ∧ (exStops.map (fun s => s.id_contacto)).Nodup
      ∧ ((([[3, 0]] : List (List ℕ)).map (fun ns =>
          ns.filter (fun node => node < exStops.length))).flatten).Nodup)
    ∧ ((extract_solution [[3, 0]] exStops exVehicles exZero exZero
        exStops.length none).routes.map (fun r => r.sequence)).flatten.Nodup := by
  refine ⟨⟨by decide, by decide, by decide⟩, ?_⟩
  exact ((extract_solution_partition [[3, 0]] exStops exVehicles exZero exZero none
    (by decide) (by decide) (by decide))
    (extract_solution [[3, 0]] exStops exVehicles exZero exZero exStops.length none) rfl).1

/-- C4 (amended): when the caller-supplied `start_id` occurs in an extracted
sequence, the output sequence is exactly the rotation of the extracted
sequence at the first index of `start_id` (same stops, same cyclic order,
same length) with `start_id` first; however the route's reported `km` and
`min` are computed by `_calculate_route_metrics` on the rotated sequence,
not on the unrotated one. -/
theorem reorder_route_with_start_id_spec (seq : List String) (sid : String)
    (h : sid ∈ seq) :
    reorder_route_with_start_id seq sid
      = seq.drop (seq.indexOf sid) ++ seq.take (seq.indexOf sid)
    ∧ reorder_route_with_start_id seq sid = seq.rotate (seq.indexOf sid)
    ∧ (reorder_route_with_start_id seq sid).head? = some sid
    ∧ (reorder_route_with_start_id seq sid).Perm seq
    ∧ (reorder_route_with_start_id seq sid).length = seq.length
    ∧ (∀ (pairs : List (List ℕ × VrpVehicle)) (stops : List VrpStop)
        (secM metM : ℕ → ℕ → ℚ) (n_stops : ℕ) (start_id : Option String)
        (r : VrpRoute), r ∈ extract_routes pairs stops secM metM n_stops start_id →
        r.km = (calculate_route_metrics r.sequence stops secM metM).1
        ∧ r.min = (calculate_route_metrics r.sequence stops secM metM).2) := by
  have hlt : seq.indexOf sid < seq.length := List.indexOf_lt_length.mpr h
  have hdef : reorder_route_with_start_id seq sid
      = seq.drop (seq.indexOf sid) ++ seq.take (seq.indexOf sid) := by
    unfold reorder_route_with_start_id
    rw [if_pos h]
  refine ⟨hdef, ?_, ?_, reorder_route_with_start_id_perm seq sid, ?_, ?_⟩
  · rw [hdef, List.rotate_eq_drop_append_take (le_of_lt hlt)]
  · rw [hdef]
    have hdrop : (seq.drop (seq.indexOf sid)).head? = some sid := by
      rw [List.head?_drop]
      rw [List.getElem?_eq_getElem hlt]
      rw [List.getElem_indexOf hlt]
    rw [List.head?_append, hdrop]
    rfl
  · exact (reorder_route_with_start_id_perm seq sid).length_eq
  · intro pairs stops secM metM n_stops start_id r hr
    have := extract_routes_mem pairs stops secM metM n_stops start_id r hr
    exact ⟨this.2.1, this.2.2.1⟩

/-- C4 witness: the rotation theorem applied to a concrete sequence. -/
theorem reorder_route_with_start_id_spec_witness :
    ("B" ∈ ["A", "B", "C"])
    ∧ (reorder_route_with_start_id ["A", "B", "C"] "B").head? = some "B" := by
  refine ⟨by decide, ?_⟩
  exact (reorder_route_with_start_id_spec ["A", "B", "C"] "B" (by decide)).2.2.1

/-- C4 counterexample: the route containing `start_id = "B"` is extracted as
`["A", "B", "C"]`, reported as the rotation `["B", "C", "A"]`, and its
reported `km` (101) is computed on the rotated sequence - it differs from
the `km` of the unrotated extracted sequence (2), so the rotation is not
purely cosmetic. -/
theorem extract_solution_rotation_cex :
    rawSequence exStops 3 [3, 0, 1, 2] = ["A", "B", "C"]
    ∧ ((extract_solution [[3, 0, 1, 2]] exStops exVehicles exZero exMet 3
        (some "B")).routes.map (fun r => r.sequence)) = [["B", "C", "A"]]
    ∧ ((extract_solution [[3, 0, 1, 2]] exStops exVehicles exZero exMet 3
        (some "B")).routes.map (fun r => r.km)) = [(101 : ℚ)]
    ∧ (calculate_route_metrics ["A", "B", "C"] exStops exZero exMet).1 = 2
    ∧ ((101 : ℚ) ≠ 2) := by
  refine ⟨by decide, by decide, ?_, ?_, by norm_num⟩
  · simp [extract_solution, extract_routes, rawSequence, applyStartId, exStops, exVehicles,
      reorder_route_with_start_id, calculate_route_metrics, id_to_idx, serviceSeconds,
      consecutivePairSum, exMet, exZero, List.enum, List.enumFrom, pyRound, roundHalfEven]
    norm_num [Int.fract]
  · simp [calculate_route_metrics, id_to_idx, serviceSeconds, consecutivePairSum,
      exMet, exZero, exStops, List.enum, List.enumFrom, pyRound, roundHalfEven]
    norm_num [Int.fract]

/-! ## The cost model constructed by `solve_open_vrp` (lines 80-166)

The OR-Tools model is built imperatively: an arc-cost evaluator (lines
111-129), one capacity dimension (lines 133-154) and one disjunction per
real node (lines 156-159).  We embed the constructed model as the list of
components emitted, in order.  A soft balance penalty (what the spec
promises when `balance_load` is set) would be one more component; the
constructor `balancePenalty` represents it.
-/

/-- One component of the constructed routing cost model. -/
inductive CostModelComponent where
  | arcCostEvaluator (cost : ℕ → ℕ → ℤ)
  | capacityDimension (demand : ℕ → ℤ) (slack_max : ℕ)
      (vehicle_capacities : List ℕ) (start_cumul_to_zero : Bool) (nm : String)
  | disjunction (nodes : List ℕ) (penalty : ℤ)
  | balancePenalty (weight : ℚ)

/-- Is a component a load-balance term? -/
def isBalanceComponent : CostModelComponent → Bool
  | .balancePenalty _ => true
  | _ => false

/-- One overwrite `extended[i][j] = v` of the Python list-of-lists. -/
def applyWrites (base : ℕ → ℕ → ℤ) (ws : List (ℕ × ℕ × ℤ)) : ℕ → ℕ → ℤ :=
  ws.foldl (fun g w => fun i j => if i = w.1 ∧ j = w.2.1 then w.2.2 else g i j) base

/-- `_extend_matrix_for_open_vrp` (lines 190-250): a zero-initialised
`(N+2V) x (N+2V)` table written in the source's loop order (later writes
override earlier ones). -/
def extend_matrix_for_open_vrp (matrix : ℕ → ℕ → ℤ) (n_stops n_vehicles : ℕ) :
    ℕ → ℕ → ℤ :=
  applyWrites (fun _ _ => 0)
    ( -- step 1 (lines 208-210): copy the original matrix
     ((List.range n_stops).flatMap (fun i =>
        (List.range n_stops).map (fun j => (i, j, matrix i j))))
     -- step 2 (lines 213-231): start nodes
     ++ ((List.range n_vehicles).flatMap (fun v =>
        ((List.range n_stops).map (fun stop => (n_stops + v, stop, (0 : ℤ))))
        ++ [(n_stops + v, n_stops + n_vehicles + v, (999999 : ℤ))]
        ++ ((List.range n_vehicles).flatMap (fun w =>
              if n_stops + w ≠ n_stops + v
              then [(n_stops + v, n_stops + w, (999999 : ℤ))] else []))
        ++ ((List.range n_vehicles).flatMap (fun w =>
              if n_stops + n_vehicles + w ≠ n_stops + n_vehicles + v
              then [(n_stops + v, n_stops + n_vehicles + w, (999999 : ℤ))] else []))))
     -- step 3 (lines 234-243): end nodes
     ++ ((List.range n_vehicles).flatMap (fun v =>
        ((List.range n_stops).map (fun stop => (stop, n_stops + n_vehicles + v, (0 : ℤ))))
        ++ ((List.range (n_stops + 2 * n_vehicles)).map (fun j =>
              (n_stops + n_vehicles + v, j, (999999 : ℤ))))))
     -- step 4 (lines 246-248): real nodes to start nodes
     ++ ((List.range n_stops).flatMap (fun stop =>
        (List.range n_vehicles).map (fun v => (stop, n_stops + v, (999999 : ℤ))))))

/-- The cost model emitted by `solve_open_vrp` (lines 80-166): the combined
arc-cost evaluator over the extended integer matrices, the per-vehicle stop
capacity dimension, and one disjunction (penalty 100000) per real node.
`balance_load` is read at line 62 but no balance component is ever added. -/
def solve_open_vrp_cost_model (scenario : VrpScenario)
    (seconds_matrix meters_matrix : List (List ℚ)) : List CostModelComponent :=
  [CostModelComponent.arcCostEvaluator (fun from_node to_node =>
    pyTrunc (scenario.rules.cost_weights_time
        * ((extend_matrix_for_open_vrp
            (fun i j => roundHalfEven (matEntry seconds_matrix i j))
            scenario.stops.length scenario.vehicles.length from_node to_node : ℤ) : ℚ)
      + scenario.rules.cost_weights_distance
        * ((extend_matrix_for_open_vrp
            (fun i j => roundHalfEven (matEntry meters_matrix i j))
            scenario.stops.length scenario.vehicles.length from_node to_node : ℤ) : ℚ)
        / 100)),
   CostModelComponent.capacityDimension
     (fun from_node => if from_node < scenario.stops.length then 1 else 0)
     0
     (scenario.vehicles.map (fun v =>
       v.max_stops.getD scenario.rules.max_stops_per_vehicle))
     true
     "Capacity"]
  ++ (List.range scenario.stops.length).map (fun node =>
       CostModelComponent.disjunction [node] 100000)

/-- The module's own test scenario (lines 422-440): 3 stops, 2 vehicles,
`balance_load = True`, weights 0.7/0.3. -/
def orToolsTestScenario : VrpScenario :=
  ⟨[⟨"S_001", 34516/10000, -765320/10000, some 10⟩,
    ⟨"S_002", 34526/10000, -765330/10000, some 15⟩,
    ⟨"S_003", 34536/10000, -765340/10000, some 8⟩],
   [⟨"V1", some 40⟩, ⟨"V2", some 40⟩],
   ⟨40, true, 7/10, 3/10⟩,
   none⟩

/-- The module's test time matrix (lines 443-447). -/
def orToolsTestTimeMatrix : List (List ℚ) :=
  [[0, 300, 600], [300, 0, 400], [600, 400, 0]]

/-- The module's test distance matrix (lines 449-453). -/
def orToolsTestDistanceMatrix : List (List ℚ) :=
  [[0, 1000, 2000], [1000, 0, 1500], [2000, 1500, 0]]

/-- C3: on the module's own test scenario, which enables `balance_load`, the
cost model constructed by `solve_open_vrp` contains no balance component at
all - `balance_load` is read (line 62) but never used, contradicting both
the claim and the function's docstring (line 25). -/
theorem solve_open_vrp_cost_model_no_balance :
    orToolsTestScenario.rules.balance_load = true
    ∧ (solve_open_vrp_cost_model orToolsTestScenario orToolsTestTimeMatrix
        orToolsTestDistanceMatrix).all (fun c => !(isBalanceComponent c)) = true := by
  constructor
  · rfl
  · simp [solve_open_vrp_cost_model, isBalanceComponent, orToolsTestScenario,
      List.all_append, List.range_succ]

/-! ## Weekly shortlist selection (src/vrp/selection/semana.py)

The greedy day loop of `build_weekly_shortlists` (lines 359-386): at each
step the distances from the cursor to every remaining pool row are computed
with `haversine_meters` and Python's `min(distances, key=lambda x: x[1])`
picks the winner - `min` keeps the FIRST minimum in iteration order, which
is the pool's row order.  Coordinates are reals because the distance uses
trigonometric functions.
-/

/-- One row of the valid-jobs pool. -/
structure WeeklyJob where
  id_contacto : ℤ
  lon : ℝ
  lat : ℝ

/-- `math.radians`. -/
noncomputable def radians (x : ℝ) : ℝ := x * Real.pi / 180

/-- `haversine_meters` (semana.py lines 279-291). -/
noncomputable def haversine_meters (lon1 lat1 lon2 lat2 : ℝ) : ℝ :=
  let R : ℝ := 6371000.0
  let lam1 := radians lon1
  let phi1 := radians lat1
  let lam2 := radians lon2
  let phi2 := radians lat2
  let dphi := phi2 - phi1
  let dlam := lam2 - lam1
  let a := Real.sin (dphi/2) ^ 2 + Real.cos phi1 * Real.cos phi2 * Real.sin (dlam/2) ^ 2
  2 * R * Real.arcsin (Real.sqrt a)

/-- Python `min(l, key=lambda x: x[1])`: the first element attaining the
minimal second component (later elements replace the incumbent only when
strictly smaller). -/
noncomputable def pyMinBySnd {α : Type} : List (α × ℝ) → Option (α × ℝ)
  | [] => none
  | x :: xs => some (xs.foldl (fun best y => if y.2 < best.2 then y else best) x)

/-- The strict-replacement fold returns the first minimum: the list splits
around the result, everything before it strictly larger, everything after
it at least as large. -/
theorem pyMinFold_split {α : Type} (x : α × ℝ) (xs : List (α × ℝ)) :
    ∃ l1 l2, x :: xs = l1
        ++ (xs.foldl (fun best y => if y.2 < best.2 then y else best) x) :: l2
    ∧ (∀ q ∈ l1, (xs.foldl (fun best y => if y.2 < best.2 then y else best) x).2 < q.2)
    ∧ (∀ q ∈ l2, (xs.foldl (fun best y => if y.2 < best.2 then y else best) x).2 ≤ q.2) := by
  induction xs generalizing x with
  | nil => exact ⟨[], [], rfl, by simp, by simp⟩
  | cons y ys ih =>
    rw [List.foldl_cons]
    by_cases hlt : y.2 < x.2
    · rw [if_pos hlt]
      obtain ⟨l1, l2, hsplit, h1, h2⟩ := ih y
      have hry : (ys.foldl (fun best y => if y.2 < best.2 then y else best) y).2 ≤ y.2 := by
        cases l1 with
        | nil =>
          injection hsplit with hy _
          rw [← hy]
        | cons a t =>
          rw [List.cons_append] at hsplit
          injection hsplit with hy _
          exact le_of_lt (hy ▸ h1 a (by simp))
      refine ⟨x :: l1, l2, by rw [List.cons_append, ← hsplit], ?_, h2⟩
      intro q hq
      rcases List.mem_cons.mp hq with hq | hq
      · rw [hq]
        exact lt_of_le_of_lt hry hlt
      · exact h1 q hq
    · rw [if_neg hlt]
      obtain ⟨l1, l2, hsplit, h1, h2⟩ := ih x
      set r := ys.foldl (fun best y => if y.2 < best.2 then y else best) x with hr
      cases l1 with
      | nil =>
        injection hsplit with hx hl2
        refine ⟨[], y :: ys, by rw [List.nil_append, ← hx], by simp, ?_⟩
        intro q hq
        rcases List.mem_cons.mp hq with hq | hq
        · rw [hq, ← hx]
          exact le_of_not_lt hlt
        · exact h2 q (hl2 ▸ hq)
      | cons a t =>
        rw [List.cons_append] at hsplit
        injection hsplit with hx hys
        have hra : r.2 < x.2 := hx ▸ h1 a (by simp)
        refine ⟨x :: y :: t, l2, ?_, ?_, h2⟩
        · rw [List.cons_append, List.cons_append, hys]
        intro q hq
        rcases List.mem_cons.mp hq with hq | hq
        · rw [hq]
          exact hra
        rcases List.mem_cons.mp hq with hq2 | hq2
        · rw [hq2]
          exact lt_of_lt_of_le hra (le_of_not_lt hlt)
        · exact h1 q (by simp [hq2])

/-- One step of the greedy day loop (semana.py lines 368-386): compute
`(idx, dist)` pairs over the remaining pool in row order, take Python
`min` by distance, select that row, and drop it from the pool. -/
noncomputable def build_day_step (cursor : ℝ × ℝ) (pool : List WeeklyJob) :
    Option (WeeklyJob × List WeeklyJob) :=
  match pyMinBySnd (pool.enum.map (fun p =>
      (p.1, haversine_meters cursor.1 cursor.2 p.2.lon p.2.lat))) with
  | none => none
  | some (closest_idx, _) =>
    match pool[closest_idx]? with
    | none => none
    | some selected_row => some (selected_row, pool.eraseIdx closest_idx)

/-- The greedy day loop (semana.py lines 364-386): up to `target` steps,
moving the cursor to each selected client; returns the day's selection and
the remaining pool. -/
noncomputable def build_day : ℕ → (ℝ × ℝ) → List WeeklyJob → List WeeklyJob × List WeeklyJob
  | 0, _, pool => ([], pool)
  | Nat.succ k, cursor, pool =>
    match build_day_step cursor pool with
    | none => ([], pool)
    | some (sel, pool2) =>
      let rest := build_day k (sel.lon, sel.lat) pool2
      (sel :: rest.1, rest.2)

/-- C5 (amended): at every greedy step of the day loop the appended client
is one at minimum haversine distance from the cursor among the remaining
pool, but ties are broken by the earliest row in the pool's iteration
order (Python's `min` keeps the first minimum), not by lower client id:
every pool row strictly before the selected one is strictly farther. -/
theorem build_day_greedy_step (cursor : ℝ × ℝ) (pool : List WeeklyJob) (k : ℕ)
    (hne : pool ≠ []) :
    ∃ idx, ∃ hidx : idx < pool.length,
      build_day_step cursor pool = some (pool[idx], pool.eraseIdx idx)
      ∧ build_day (k + 1) cursor pool
          = (pool[idx] :: (build_day k (pool[idx].lon, pool[idx].lat)
                (pool.eraseIdx idx)).1,
             (build_day k (pool[idx].lon, pool[idx].lat) (pool.eraseIdx idx)).2)
      ∧ (∀ j ∈ pool, haversine_meters cursor.1 cursor.2 pool[idx].lon pool[idx].lat
          ≤ haversine_meters cursor.1 cursor.2 j.lon j.lat)
      ∧ (∀ i, ∀ hi : i < idx,
          haversine_meters cursor.1 cursor.2 pool[idx].lon pool[idx].lat
            < haversine_meters cursor.1 cursor.2
                (pool.get ⟨i, lt_trans hi hidx⟩).lon
                (pool.get ⟨i, lt_trans hi hidx⟩).lat) := by
  set g : ℕ × WeeklyJob → ℕ × ℝ := fun p =>
    (p.1, haversine_meters cursor.1 cursor.2 p.2.lon p.2.lat) with hg
  set l := pool.enum.map g with hl
  have hllen : l.length = pool.length := by simp [hl]
  have hlget : ∀ i (hi : i < pool.length) (hil : i < l.length),
      l.get ⟨i, hil⟩
        = (i, haversine_meters cursor.1 cursor.2 (pool.get ⟨i, hi⟩).lon
            (pool.get ⟨i, hi⟩).lat) := by
    intro i hi hil
    simp [hl, hg, List.get_eq_getElem]
  have hlne : l ≠ [] := by
    intro h
    have := congrArg List.length h
    rw [hllen] at this
    exact hne (List.length_eq_zero.mp this)
  obtain ⟨x, xs, hxxs⟩ := List.exists_cons_of_ne_nil hlne
  obtain ⟨l1, l2, hsplit, h1, h2⟩ := pyMinFold_split x xs
  set r := xs.foldl (fun best y => if y.2 < best.2 then y else best) x with hr
  rw [← hxxs] at hsplit
  have hminr : pyMinBySnd l = some r := by
    rw [hxxs]
    rfl
  have hminall : ∀ q ∈ l, r.2 ≤ q.2 := by
    intro q hq
    rw [hsplit] at hq
    rcases List.mem_append.mp hq with hq | hq
    · exact le_of_lt (h1 q hq)
    rcases List.mem_cons.mp hq with hq | hq
    · rw [hq]
    · exact h2 q hq
  have hidxlen : l1.length < l.length := by
    rw [hsplit, List.length_append, List.length_cons]
    omega
  have hidxpool : l1.length < pool.length := by rwa [hllen] at hidxlen
  have hlidx : l.get ⟨l1.length, hidxlen⟩ = r := by
    rw [List.get_eq_getElem, List.getElem_of_eq hsplit hidxlen]
    rw [List.getElem_append_right (le_refl l1.length)]
    simp
  have hrfst : r = (l1.length, haversine_meters cursor.1 cursor.2
      (pool.get ⟨l1.length, hidxpool⟩).lon (pool.get ⟨l1.length, hidxpool⟩).lat) := by
    rw [← hlidx, hlget l1.length hidxpool hidxlen]
  have hstep : build_day_step cursor pool
      = some (pool.get ⟨l1.length, hidxpool⟩, pool.eraseIdx l1.length) := by
    rw [build_day_step, hminr, hrfst]
    dsimp only
    rw [List.getElem?_eq_getElem hidxpool]
    rfl
  refine ⟨l1.length, hidxpool, hstep, ?_, ?_, ?_⟩
  · rw [build_day, hstep]
    rfl
  · intro j hj
    obtain ⟨i, hi, hji⟩ := List.mem_iff_getElem.mp hj
    have hil : i < l.length := by rw [hllen]; exact hi
    have hq : l.get ⟨i, hil⟩ ∈ l := List.get_mem l i hil
    have := hminall _ hq
    rw [hlget i hi hil, hrfst] at this
    simpa [List.get_eq_getElem, hji] using this
  · intro i hi
    have hil : i < l.length := by omega
    have hq1 : l.get ⟨i, hil⟩ ∈ l1 := by
      rw [List.get_eq_getElem, List.getElem_of_eq hsplit hil, List.getElem_append_left hi]
      exact List.getElem_mem _
    have := h1 _ hq1
    rw [hlget i (lt_trans hi hidxpool) hil, hrfst] at this
    simpa [List.get_eq_getElem] using this

/-- C5 witness: the greedy-step theorem applied to a concrete pool. -/
theorem build_day_greedy_step_witness :
    (([⟨1, 0, 0⟩, ⟨2, 3, 4⟩] : List WeeklyJob) ≠ [])
    ∧ ∃ idx, ∃ hidx : idx < ([⟨1, 0, 0⟩, ⟨2, 3, 4⟩] : List WeeklyJob).length,
      build_day_step (0, 0) [⟨1, 0, 0⟩, ⟨2, 3, 4⟩]
        = some (([⟨1, 0, 0⟩, ⟨2, 3, 4⟩] : List WeeklyJob)[idx],
            ([⟨1, 0, 0⟩, ⟨2, 3, 4⟩] : List WeeklyJob).eraseIdx idx) := by
  refine ⟨by simp, ?_⟩
  obtain ⟨idx, hidx, hstep, _⟩ :=
    build_day_greedy_step (0, 0) [⟨1, 0, 0⟩, ⟨2, 3, 4⟩] 0 (by simp)
  exact ⟨idx, hidx, hstep⟩

/-- C5 counterexample: two clients at the same coordinates (hence at the
same minimum haversine distance from the cursor), the one with the larger
id listed first; the greedy step appends the larger id 5, not the lower
id 2 that the claim requires. -/
theorem build_day_tiebreak_cex :
    (build_day 1 (0, 0) [⟨5, 10, 20⟩, ⟨2, 10, 20⟩]).1.map (fun j => j.id_contacto) = [5]
    ∧ haversine_meters 0 0 (10 : ℝ) 20 = haversine_meters 0 0 (10 : ℝ) 20
    ∧ ((2 : ℤ) < 5) := by
  refine ⟨?_, rfl, by norm_num⟩
  simp [build_day, build_day_step, pyMinBySnd, List.enum, List.enumFrom]

/-! ## Matrix service (src/vrp/matrix/matrix_manager.py, osrm_client.py,
src/vrp/utils/config.py)

`MatrixManager.get_matrices` validates coordinates, enforces
`CONFIG.MAX_LOCATIONS`, then either returns the OSRM matrices (when the
quality check passes) or recomputes the whole pair by haversine fallback.
The OSRM backend call is abstracted by an optional response whose cells may
be null; the cache is bypassed (a cache miss).  Cells are rationals from
the JSON body; fallback matrices are real-valued (trigonometry).
-/

/-- A row of the locations DataFrame: possibly-missing coordinates. -/
structure MmLocation where
  lat : Option ℚ
  lon : Option ℚ
  deriving DecidableEq

/-- `VRPConfig.MAX_LOCATIONS` (config.py line 24). -/
def MAX_LOCATIONS : ℕ := 500

/-- `VRPConfig.SPEED_KMH` (config.py line 31). -/
def SPEED_KMH : ℚ := 30

/-- `validate_coordinates` (config.py lines 73-95): ranges valid and no
nulls. -/
def validate_coordinates (locations : List MmLocation) : Bool :=
  locations.all (fun p =>
    match p.lat, p.lon with
    | some la, some lo => decide (-90 ≤ la ∧ la ≤ 90 ∧ -180 ≤ lo ∧ lo ≤ 180)
    | _, _ => false)

/-- The body of an OSRM `/table` response: both matrices, any cell may be
null. -/
structure OSRMTableResponse where
  distances : List (List (Option ℚ))
  durations : List (List (Option ℚ))
  deriving DecidableEq

/-- `OSRMClient.get_matrix` (osrm_client.py lines 69-131) on a cache miss:
validate coordinates, then return the response matrices verbatim (null
cells included); any request/parse/code failure raises (`none`). -/
def osrm_client_get_matrix (locations : List MmLocation)
    (response : Option OSRMTableResponse) :
    Except String (List (List (Option ℚ)) × List (List (Option ℚ))) :=
  if ¬ validate_coordinates locations then .error "Invalid coordinates in locations data"
  else
    match response with
    | none => .error "Failed to get matrix from OSRM"
    | some resp => .ok (resp.distances, resp.durations)

/-- Shape of a nested-list matrix (`ndarray.shape` for a well-formed 2-d
array). -/
def matShape (m : List (List (Option ℚ))) : ℕ × ℕ := (m.length, (m.headD []).length)

/-- Every cell present (a null cell makes the NumPy numeric checks of
`_validate_matrix_quality` raise, which the function catches, returning
False). -/
def allSomeMatrix (m : List (List (Option ℚ))) : Bool :=
  m.all (fun row => row.all (fun c => c.isSome))

/-- Diagonal within `np.allclose(diag, 0, atol=1)`. -/
def diagOK (m : List (List (Option ℚ))) : Bool :=
  (List.range m.length).all (fun i =>
    match (m.getD i []).getD i none with
    | some q => decide (-1 ≤ q ∧ q ≤ 1)
    | none => false)

/-- No negative cell. -/
def nonnegOK (m : List (List (Option ℚ))) : Bool :=
  m.all (fun row => row.all (fun c =>
    match c with
    | some q => decide (0 ≤ q)
    | none => false))

/-- `_validate_matrix_quality` (matrix_manager.py lines 123-190): shape
equality, squareness, near-zero diagonal, non-negativity and finiteness
must all hold; a null cell anywhere fails the numeric checks (the caught
exception returns False), and the symmetry/correlation checks only warn. -/
def validate_matrix_quality (dist time : List (List (Option ℚ))) : Bool :=
  decide (matShape dist = matShape time)
  && decide ((matShape dist).1 = (matShape dist).2)
  && allSomeMatrix dist
  && allSomeMatrix time
  && diagOK dist
  && diagOK time
  && nonnegOK dist
  && nonnegOK time

/-- `np.ndarray.astype(int)`: truncation toward zero, over the reals. -/
noncomputable def pyTruncR (x : ℝ) : ℤ :=
  if 0 ≤ x then ⌊x⌋ else ⌈x⌉

/-- `calculate_haversine_distance` (config.py lines 97-122), in meters. -/
noncomputable def calculate_haversine_distance (lat1 lon1 lat2 lon2 : ℝ) : ℝ :=
  let p1 := radians lat1
  let l1 := radians lon1
  let p2 := radians lat2
  let l2 := radians lon2
  let dlat := p2 - p1
  let dlon := l2 - l1
  let a := Real.sin (dlat/2) ^ 2 + Real.cos p1 * Real.cos p2 * Real.sin (dlon/2) ^ 2
  let c := 2 * Real.arcsin (Real.sqrt a)
  c * 6371000

/-- The coordinate pairs `(lat, lon)` of the locations (all present on the
validated path). -/
def locCoords (locations : List MmLocation) : List (ℝ × ℝ) :=
  locations.map (fun p => (((p.lat.getD 0 : ℚ) : ℝ), ((p.lon.getD 0 : ℚ) : ℝ)))

/-- `create_distance_matrix` (config.py lines 124-151): zero diagonal, each
off-diagonal pair filled symmetrically from the haversine distance of the
lower-index coordinate to the higher-index one. -/
noncomputable def create_distance_matrix (coords : List (ℝ × ℝ)) : ℕ → ℕ → ℝ :=
  fun i j =>
    if i = j then 0
    else if i < j then
      calculate_haversine_distance (coords.getD i (0, 0)).1 (coords.getD i (0, 0)).2
        (coords.getD j (0, 0)).1 (coords.getD j (0, 0)).2
    else
      calculate_haversine_distance (coords.getD j (0, 0)).1 (coords.getD j (0, 0)).2
        (coords.getD i (0, 0)).1 (coords.getD i (0, 0)).2

/-- `estimate_time_matrix` (config.py lines 153-170):
`((distance/1000)/speed*3600).astype(int)`. -/
noncomputable def estimate_time_matrix (distance_matrix : ℕ → ℕ → ℝ)
    (speed_kmh : ℝ) : ℕ → ℕ → ℝ :=
  fun i j => ((pyTruncR ((distance_matrix i j / 1000) / speed_kmh * 3600) : ℤ) : ℝ)

/-- `MatrixManager._compute_fallback_matrices` (matrix_manager.py lines
85-121) on a cache miss: full haversine distance matrix plus the 30 km/h
time estimate. -/
noncomputable def mm_compute_fallback (locations : List MmLocation) :
    (ℕ → ℕ → ℝ) × (ℕ → ℕ → ℝ) :=
  (create_distance_matrix (locCoords locations),
   estimate_time_matrix (create_distance_matrix (locCoords locations)) ((SPEED_KMH : ℚ) : ℝ))

/-- The error kinds `MatrixManager.get_matrices` raises. -/
inductive MatrixError where
  | invalidCoords
  | tooLarge
  deriving DecidableEq

/-- `MatrixManager.get_matrices` (matrix_manager.py lines 36-83) with
`force_osrm=False`: validate, enforce `MAX_LOCATIONS`, then OSRM (kept only
if the quality check passes) or the haversine fallback. -/
noncomputable def mm_get_matrices (locations : List MmLocation)
    (osrm_available : Bool) (response : Option OSRMTableResponse) :
    Except MatrixError ((ℕ → ℕ → ℝ) × (ℕ → ℕ → ℝ)) :=
  if ¬ validate_coordinates locations then .error .invalidCoords
  else if locations.length > MAX_LOCATIONS then .error .tooLarge
  else if osrm_available then
    match osrm_client_get_matrix locations response with
    | .ok (dist, time) =>
      if validate_matrix_quality dist time then
        .ok (fun i j => (((dist.getD i []).getD j none).getD 0 : ℚ),
             fun i j => (((time.getD i []).getD j none).getD 0 : ℚ))
      else .ok (mm_compute_fallback locations)
    | .error _ => .ok (mm_compute_fallback locations)
  else .ok (mm_compute_fallback locations)

/-- C6 (amended): for valid coordinates, `MatrixManager.get_matrices` fails
with the too-large error exactly when the number of locations exceeds
`MAX_LOCATIONS = 500` (not 300 as the claim states); at or below 500 it
always produces matrices. -/
theorem mm_get_matrices_too_large_iff (locations : List MmLocation)
    (osrm_available : Bool) (response : Option OSRMTableResponse)
    (hvalid : validate_coordinates locations = true) :
    (mm_get_matrices locations osrm_available response = .error .tooLarge
      ↔ locations.length > 500)
    ∧ MAX_LOCATIONS = 500 := by
  refine ⟨?_, rfl⟩
  rw [mm_get_matrices]
  rw [if_neg (by simp [hvalid])]
  constructor
  · intro h
    by_contra hgt
    rw [if_neg (by simpa [MAX_LOCATIONS] using hgt)] at h
    by_cases hosrm : osrm_available
    · rw [if_pos hosrm] at h
      cases hclient : osrm_client_get_matrix locations response with
      | ok p =>
        rw [hclient] at h
        by_cases hq : validate_matrix_quality p.1 p.2
        · simp [hq] at h
        · simp [hq] at h
      | error e =>
        rw [hclient] at h
        simp at h
    · rw [if_neg hosrm] at h
      simp at h
  · intro h
    rw [if_pos (by simpa [MAX_LOCATIONS] using h)]

/-- C6 witness: the iff applied to a single valid location. -/
theorem mm_get_matrices_too_large_iff_witness :
    validate_coordinates [⟨some 0, some 0⟩] = true
    ∧ ¬ (mm_get_matrices [⟨some 0, some 0⟩] false none = .error .tooLarge) := by
  have hvalid : validate_coordinates [⟨some 0, some 0⟩] = true := by
    simp [validate_coordinates]
  refine ⟨hvalid, ?_⟩
  intro h
  have := (mm_get_matrices_too_large_iff [⟨some 0, some 0⟩] false none hvalid).1.mp h
  simp at this

/-- C6 counterexample: 301 valid points exceed the claimed ceiling of 300,
yet `get_matrices` does not reject them (the configured ceiling is 500). -/
theorem mm_get_matrices_301_cex :
    validate_coordinates (List.replicate 301 ⟨some 0, some 0⟩) = true
    ∧ (List.replicate 301 (⟨some 0, some 0⟩ : MmLocation)).length = 301
    ∧ (301 > 300)
    ∧ mm_get_matrices (List.replicate 301 ⟨some 0, some 0⟩) false none
        ≠ .error .tooLarge := by
  have hvalid : validate_coordinates (List.replicate 301 ⟨some 0, some 0⟩) = true := by
    rw [validate_coordinates, List.all_eq_true]
    intro p hp
    rw [List.eq_of_mem_replicate hp]
    norm_num
  refine ⟨hvalid, by simp, by norm_num, ?_⟩
  rw [mm_get_matrices]
  rw [if_neg (fun h => h hvalid)]
  rw [if_neg (by simp [MAX_LOCATIONS])]
  simp

/-- A null cell anywhere fails the matrix quality check. -/
theorem mm_quality_false_of_null (dist time : List (List (Option ℚ)))
    (hnull : dist.any (fun row => row.any (fun c => c.isNone)) = true
           ∨ time.any (fun row => row.any (fun c => c.isNone)) = true) :
    validate_matrix_quality dist time = false := by
  have hkey : ∀ m : List (List (Option ℚ)),
      m.any (fun row => row.any (fun c => c.isNone)) = true →
      allSomeMatrix m = false := by
    intro m hm
    obtain ⟨row, hrow, hc⟩ := List.any_eq_true.mp hm
    obtain ⟨c, hcr, hcn⟩ := List.any_eq_true.mp hc
    rw [allSomeMatrix]
    rw [List.all_eq_false]
    refine ⟨row, hrow, ?_⟩
    simp only [Bool.not_eq_true, List.all_eq_false]
    refine ⟨c, hcr, ?_⟩
    cases c with
    | none => simp
    | some q => cases hcn
  cases hnull with
  | inl h => simp [validate_matrix_quality, hkey dist h]
  | inr h => simp [validate_matrix_quality, hkey time h]

/-- C7 (amended): when the backend responds with a null cell in either
matrix, `MatrixManager.get_matrices` discards the backend response
entirely - the quality check fails and BOTH returned matrices are
recomputed from scratch by the haversine fallback (distance by haversine,
time as the integer part of `distance_km / 30 km/h * 3600` seconds);
non-null backend cells are not kept, and the returned matrices have no
null cell by construction. -/
theorem mm_get_matrices_null_full_fallback (locations : List MmLocation)
    (resp : OSRMTableResponse)
    (hvalid : validate_coordinates locations = true)
    (hsize : ¬ locations.length > MAX_LOCATIONS)
    (hnull : resp.distances.any (fun row => row.any (fun c => c.isNone)) = true
           ∨ resp.durations.any (fun row => row.any (fun c => c.isNone)) = true) :
    mm_get_matrices locations true (some resp) = .ok (mm_compute_fallback locations)
    ∧ mm_compute_fallback locations
        = (create_distance_matrix (locCoords locations),
           estimate_time_matrix (create_distance_matrix (locCoords locations)) 30) := by
  constructor
  · have hq := mm_quality_false_of_null resp.distances resp.durations hnull
    have hclient : osrm_client_get_matrix locations (some resp)
        = .ok (resp.distances, resp.durations) := by
      rw [osrm_client_get_matrix, if_neg (fun h => h hvalid)]
    rw [mm_get_matrices, if_neg (fun h => h hvalid), if_neg hsize, if_pos rfl, hclient]
    simp [hq]
  · rw [mm_compute_fallback]
    norm_num [SPEED_KMH]

/-- Two locations at identical coordinates. -/
def cexLocs : List MmLocation := [⟨some 0, some 0⟩, ⟨some 0, some 0⟩]

/-- A backend response with one null duration cell and non-null distance
cells. -/
def cexResp : OSRMTableResponse :=
  ⟨[[some 0, some 1000], [some 1000, some 0]],
   [[some 0, none], [some 120, some 0]]⟩

/-- The haversine distance from a point to itself is zero. -/
theorem calculate_haversine_distance_self (lat lon : ℝ) :
    calculate_haversine_distance lat lon lat lon = 0 := by
  rw [calculate_haversine_distance]
  simp

/-- C7 witness: the full-fallback theorem applied to the concrete
null-bearing response. -/
theorem mm_get_matrices_null_full_fallback_witness :
    (validate_coordinates cexLocs = true
      ∧ ¬ cexLocs.length > MAX_LOCATIONS
      ∧ cexResp.durations.any (fun row => row.any (fun c => c.isNone)) = true)
    ∧ mm_get_matrices cexLocs true (some cexResp) = .ok (mm_compute_fallback cexLocs) := by
  have h1 : validate_coordinates cexLocs = true := by norm_num [validate_coordinates, cexLocs]
  have h2 : ¬ cexLocs.length > MAX_LOCATIONS := by simp [cexLocs, MAX_LOCATIONS]
  refine ⟨⟨h1, h2, by decide⟩, ?_⟩
  exact (mm_get_matrices_null_full_fallback cexLocs cexResp h1 h2 (Or.inr (by decide))).1

/-- C7 counterexample: the backend distance cell (0,1) is non-null (1000 m)
and a duration cell is null; the returned distance at (0,1) is the
haversine value 0 (identical coordinates), not the kept backend value 1000
- so null cells are not selectively back-filled. -/
theorem mm_get_matrices_null_cex :
    (cexResp.durations.getD 0 []).getD 1 none = none
    ∧ (cexResp.distances.getD 0 []).getD 1 none = some 1000
    ∧ (∃ D T, mm_get_matrices cexLocs true (some cexResp) = .ok (D, T)
        ∧ D 0 1 = 0)
    ∧ ((0 : ℝ) ≠ 1000) := by
  refine ⟨rfl, rfl, ?_, by norm_num⟩
  have h1 : validate_coordinates cexLocs = true := by norm_num [validate_coordinates, cexLocs]
  have hq := mm_quality_false_of_null cexResp.distances cexResp.durations (Or.inr (by decide))
  have hclient : osrm_client_get_matrix cexLocs (some cexResp)
      = .ok (cexResp.distances, cexResp.durations) := by
    rw [osrm_client_get_matrix, if_neg (fun h => h h1)]
  refine ⟨(mm_compute_fallback cexLocs).1, (mm_compute_fallback cexLocs).2, ?_, ?_⟩
  · rw [mm_get_matrices, if_neg (fun h => h h1),
      if_neg (by simp [cexLocs, MAX_LOCATIONS]), if_pos rfl, hclient]
    simp [hq]
  · rw [mm_compute_fallback]
    simp only [create_distance_matrix, locCoords, cexLocs]
    norm_num [calculate_haversine_distance_self]

/-! ## Coordinate repair (src/pre_procesamiento/prepro_localizacion.py)

`tag_in_perimetro` and `apply_two_attempt_fix` act row by row; each row's
outcome depends only on its own fields and its events, so both are embedded
per row.  The shapely perimeter is abstracted as a pair of boolean
predicates (`contains`/`touches`); the events list is the contact's events
already sorted newest first (the `sort_values(..., ascending=False)` of
line 383), of which the code examines the first two. -/

/-- The prepared perimeter geometry: `poly.contains` / `poly.touches`. -/
structure GeoPoly where
  contains : ℚ → ℚ → Bool
  touches : ℚ → ℚ → Bool

/-- One client row after numeric coercion: missing/non-numeric coordinates
are `none`. -/
structure ClientRow where
  id_contacto : ℤ
  longitud : Option ℚ
  latitud : Option ℚ
  deriving DecidableEq

/-- One event row (the SQL already filters null and zero coordinates). -/
structure EventRow where
  coordenada_longitud : ℚ
  coordenada_latitud : ℚ
  deriving DecidableEq

/-- `coord_source`: the four repair outcomes. -/
inductive CoordSource where
  | original
  | event_1
  | event_2
  | none
  deriving DecidableEq

/-- The per-client output columns of `apply_two_attempt_fix`. -/
structure RepairedRow where
  lon_final : Option ℚ
  lat_final : Option ℚ
  coord_source : CoordSource
  in_poly_final : Bool
  deriving DecidableEq

/-- `tag_in_perimetro` (lines 221-268) for one row: valid coordinates
(present, non-zero, in range) and inside-or-on-boundary; rows failing the
validity mask keep the initialised `False`. -/
def tag_in_perimetro_row (poly : GeoPoly) (row : ClientRow) : Bool :=
  match row.longitud, row.latitud with
  | some lon, some lat =>
    if lon ≠ 0 ∧ lat ≠ 0 ∧ -180 ≤ lon ∧ lon ≤ 180 ∧ -90 ≤ lat ∧ lat ≤ 90 then
      poly.contains lon lat || poly.touches lon lat
    else false
  | _, _ => false

/-- The attempt loop of lines 388-409: try the two most recent events in
order; an event out of range is skipped, an event inside (contains or
touches) is adopted with its attempt number. -/
def attempt_events (poly : GeoPoly) (events : List EventRow) :
    Option (ℚ × ℚ × CoordSource) :=
  match events with
  | [] => Option.none
  | e1 :: rest =>
    if (-180 ≤ e1.coordenada_longitud ∧ e1.coordenada_longitud ≤ 180
        ∧ -90 ≤ e1.coordenada_latitud ∧ e1.coordenada_latitud ≤ 90)
       ∧ (poly.contains e1.coordenada_longitud e1.coordenada_latitud
          || poly.touches e1.coordenada_longitud e1.coordenada_latitud) = true then
      some (e1.coordenada_longitud, e1.coordenada_latitud, CoordSource.event_1)
    else
      match rest with
      | [] => Option.none
      | e2 :: _ =>
        if (-180 ≤ e2.coordenada_longitud ∧ e2.coordenada_longitud ≤ 180
            ∧ -90 ≤ e2.coordenada_latitud ∧ e2.coordenada_latitud ≤ 90)
           ∧ (poly.contains e2.coordenada_longitud e2.coordenada_latitud
              || poly.touches e2.coordenada_longitud e2.coordenada_latitud) = true then
          some (e2.coordenada_longitud, e2.coordenada_latitud, CoordSource.event_2)
        else Option.none

/-- `apply_two_attempt_fix` (lines 334-429) for one row: non-candidates
(valid non-zero coordinates AND inside originally) keep their original
coordinates with source `original`; candidates take the first of their two
most recent events that lies inside, else end with nulls, source `none`
and `in_poly_final = False`. -/
def apply_two_attempt_fix_row (poly : GeoPoly) (row : ClientRow)
    (events : List EventRow) : RepairedRow :=
  let in_poly_orig := tag_in_perimetro_row poly row
  let mask_valid : Bool := match row.longitud, row.latitud with
    | some lon, some lat => decide (lon ≠ 0 ∧ lat ≠ 0)
    | _, _ => false
  if mask_valid && in_poly_orig then
    -- not a repair candidate: keep the initialised columns (lines 350-354)
    ⟨row.longitud, row.latitud, CoordSource.original, in_poly_orig⟩
  else
    match attempt_events poly events with
    | some (lon_event, lat_event, src) => ⟨some lon_event, some lat_event, src, true⟩
    | Option.none => ⟨Option.none, Option.none, CoordSource.none, false⟩

/-- An adopted event lies inside the perimeter. -/
theorem attempt_events_inside (poly : GeoPoly) (events : List EventRow)
    (lon lat : ℚ) (src : CoordSource)
    (h : attempt_events poly events = some (lon, lat, src)) :
    (poly.contains lon lat || poly.touches lon lat) = true := by
  cases events with
  | nil => simp [attempt_events] at h
  | cons e1 rest =>
    simp only [attempt_events] at h
    by_cases h1 : (-180 ≤ e1.coordenada_longitud ∧ e1.coordenada_longitud ≤ 180
        ∧ -90 ≤ e1.coordenada_latitud ∧ e1.coordenada_latitud ≤ 90)
       ∧ (poly.contains e1.coordenada_longitud e1.coordenada_latitud
          || poly.touches e1.coordenada_longitud e1.coordenada_latitud) = true
    · rw [if_pos h1] at h
      cases h
      exact h1.2
    · rw [if_neg h1] at h
      cases rest with
      | nil => simp at h
      | cons e2 t =>
        dsimp only at h
        by_cases h2 : (-180 ≤ e2.coordenada_longitud ∧ e2.coordenada_longitud ≤ 180
            ∧ -90 ≤ e2.coordenada_latitud ∧ e2.coordenada_latitud ≤ 90)
           ∧ (poly.contains e2.coordenada_longitud e2.coordenada_latitud
              || poly.touches e2.coordenada_longitud e2.coordenada_latitud) = true
        · rw [if_pos h2] at h
          cases h
          exact h2.2
        · rw [if_neg h2] at h
          simp at h

/-- C8: for every client processed by the repair step, if the output has
`in_poly_final = true` then the final coordinates are present and lie
inside the closed perimeter (contains or touches); this covers both
non-candidates keeping their original coordinates and candidates repaired
from event 1 or event 2. -/
theorem apply_two_attempt_fix_in_poly (poly : GeoPoly) (row : ClientRow)
    (events : List EventRow)
    (h : (apply_two_attempt_fix_row poly row events).in_poly_final = true) :
    ∃ lon lat, (apply_two_attempt_fix_row poly row events).lon_final = some lon
      ∧ (apply_two_attempt_fix_row poly row events).lat_final = some lat
      ∧ (poly.contains lon lat || poly.touches lon lat) = true := by
  rw [apply_two_attempt_fix_row] at h ⊢
  set mask_valid : Bool := (match row.longitud, row.latitud with
    | some lon, some lat => decide (lon ≠ 0 ∧ lat ≠ 0)
    | _, _ => false) with hmask
  by_cases hc : (mask_valid && tag_in_perimetro_row poly row) = true
  · rw [if_pos hc] at h ⊢
    simp only at h
    have htag : tag_in_perimetro_row poly row = true := h
    rw [tag_in_perimetro_row] at htag
    match hrow1 : row.longitud, hrow2 : row.latitud with
    | some lon, some lat =>
      rw [hrow1, hrow2] at htag
      dsimp only at htag
      by_cases hr : lon ≠ 0 ∧ lat ≠ 0 ∧ -180 ≤ lon ∧ lon ≤ 180 ∧ -90 ≤ lat ∧ lat ≤ 90
      · rw [if_pos hr] at htag
        exact ⟨lon, lat, by simp, by simp, htag⟩
      · rw [if_neg hr] at htag
        cases htag
    | some lon, Option.none =>
      rw [hrow1, hrow2] at htag
      simp at htag
    | Option.none, _ =>
      rw [hrow1] at htag
      simp at htag
  · rw [if_neg hc] at h ⊢
    match hev : attempt_events poly events with
    | some (lon_event, lat_event, src) =>
      exact ⟨lon_event, lat_event, rfl, rfl, attempt_events_inside poly events _ _ _ hev⟩
    | Option.none =>
      rw [hev] at h
      simp at h

/-- A concrete perimeter: the closed unit square. -/
def exPoly : GeoPoly :=
  ⟨fun lon lat => decide (0 ≤ lon ∧ lon ≤ 1 ∧ 0 ≤ lat ∧ lat ≤ 1), fun _ _ => false⟩

/-- C8 witness: a candidate row (outside the square) repaired from its most
recent event (on the square boundary). -/
theorem apply_two_attempt_fix_in_poly_witness :
    (apply_two_attempt_fix_row exPoly ⟨17, some 5, some 5⟩ [⟨0, 1⟩]).in_poly_final = true
    ∧ ∃ lon lat,
      (apply_two_attempt_fix_row exPoly ⟨17, some 5, some 5⟩ [⟨0, 1⟩]).lon_final = some lon
      ∧ (apply_two_attempt_fix_row exPoly ⟨17, some 5, some 5⟩ [⟨0, 1⟩]).lat_final = some lat
      ∧ (exPoly.contains lon lat || exPoly.touches lon lat) = true := by
  have h : (apply_two_attempt_fix_row exPoly ⟨17, some 5, some 5⟩ [⟨0, 1⟩]).in_poly_final
      = true := by
    simp [apply_two_attempt_fix_row, tag_in_perimetro_row, attempt_events, exPoly]
    norm_num
  exact ⟨h, apply_two_attempt_fix_in_poly exPoly ⟨17, some 5, some 5⟩ [⟨0, 1⟩] h⟩

/-! ## Route geometry (src/vrp/paths/osrm_route.py)

`route_polyline` asks the OSRM `/route` endpoint for a street polyline and,
on ANY failure of the call (HTTP status, JSON parse, `code != Ok`, no
routes), falls back to `_create_straight_line_route`.  The backend call is
abstracted by an optional parsed first route (`none` = the call raised);
the polyline decode of the success branch is an abstract argument; the
cache is taken as missing. -/

/-- One stop with coordinates. -/
structure RouteStop where
  id_contacto : String
  lat : ℝ
  lon : ℝ

/-- One leg dict of the result. -/
structure RouteLeg where
  distance_m : ℝ
  duration_s : ℝ
  steps : ℕ

/-- The route-geometry result dict. -/
structure RouteGeometry where
  polyline : String
  coordinates : List (ℝ × ℝ)
  distance_m : ℝ
  duration_s : ℝ
  geometry_valid : Bool
  legs : List RouteLeg

/-- The first route of a parsed, `code = Ok` OSRM `/route` body. -/
structure OSRMParsedRoute where
  geometry : String
  distance : ℝ
  duration : ℝ
  legs : List (ℝ × ℝ × ℕ)

/-- `math.atan2`. -/
noncomputable def atan2 (y x : ℝ) : ℝ :=
  if 0 < x then Real.arctan (y / x)
  else if x < 0 ∧ 0 ≤ y then Real.arctan (y / x) + Real.pi
  else if x < 0 ∧ y < 0 then Real.arctan (y / x) - Real.pi
  else if x = 0 ∧ 0 < y then Real.pi / 2
  else if x = 0 ∧ y < 0 then -(Real.pi / 2)
  else 0

/-- `_haversine_distance` (osrm_route.py lines 291-310), atan2 form. -/
noncomputable def osrm_route_haversine (lat1 lon1 lat2 lon2 : ℝ) : ℝ :=
  let R : ℝ := 6371000
  let lat1_rad := radians lat1
  let lat2_rad := radians lat2
  let delta_lat := radians (lat2 - lat1)
  let delta_lon := radians (lon2 - lon1)
  let a := Real.sin (delta_lat / 2) ^ 2
    + Real.cos lat1_rad * Real.cos lat2_rad * Real.sin (delta_lon / 2) ^ 2
  let c := 2 * atan2 (Real.sqrt a) (Real.sqrt (1 - a))
  R * c

/-- `_create_straight_line_route` (lines 240-288): leg-wise haversine
distances between consecutive `[lon, lat]` points, a 50 km/h duration
estimate per leg, totals as the sums, `geometry_valid = False`. -/
noncomputable def create_straight_line_route (coordinates : List (ℝ × ℝ)) : RouteGeometry :=
  if coordinates.length ≤ 1 then ⟨"", coordinates, 0, 0, false, []⟩
  else
    let dists := (coordinates.zip coordinates.tail).map (fun p =>
      osrm_route_haversine p.1.2 p.1.1 p.2.2 p.2.1)
    let legs := dists.map (fun d => (⟨d, d / 1000 * 3600 / 50, 1⟩ : RouteLeg))
    ⟨"", coordinates, (legs.map (fun l => l.distance_m)).sum,
     (legs.map (fun l => l.duration_s)).sum, false, legs⟩

/-- `_process_osrm_route_response` (lines 183-217); the polyline decode is
the abstract `decoded`. -/
def process_osrm_route_response (route : OSRMParsedRoute)
    (decoded : List (ℝ × ℝ)) (original_coords : List (ℝ × ℝ)) : RouteGeometry :=
  ⟨route.geometry,
   if route.geometry ≠ "" then decoded else original_coords,
   route.distance, route.duration, true,
   route.legs.map (fun l => ⟨l.1, l.2.1, l.2.2⟩)⟩

/-- `route_polyline` (lines 12-97) on a cache miss: empty sequence raises,
one stop short-circuits, a missing stop id raises while building the
coordinates, then the backend result is processed or - on any failure -
the straight-line fallback is returned. -/
noncomputable def route_polyline (sequence : List String) (stops : List RouteStop)
    (backend : Option OSRMParsedRoute) (decoded : List (ℝ × ℝ)) :
    Except String RouteGeometry :=
  if sequence = [] then .error "Sequence no puede estar vacio"
  else if sequence.length = 1 then
    match stops.find? (fun s => s.id_contacto = sequence.headI) with
    | Option.none => .error "Stop no encontrado en lista de stops"
    | some stop => .ok ⟨"", [(stop.lon, stop.lat)], 0, 0, false, []⟩
  else
    match sequence.mapM (fun sid => (stops.find? (fun s => s.id_contacto = sid)).map
        (fun s => (s.lon, s.lat))) with
    | Option.none => .error "Stop no encontrado en lista de stops"
    | some coordinates =>
      match backend with
      | some route => .ok (process_osrm_route_response route decoded coordinates)
      | Option.none => .ok (create_straight_line_route coordinates)

/-- Summing the 50 km/h per-leg estimates equals the 50 km/h estimate of
the total. -/
theorem sum_leg_durations (L : List ℝ) :
    (L.map (fun d => d / 1000 * 3600 / 50)).sum = L.sum / 1000 / 50 * 3600 := by
  induction L with
  | nil => simp
  | cons d t ih =>
    simp only [List.map_cons, List.sum_cons, ih]
    ring

/-- Mapping a total-on-this-list partial function over a list succeeds. -/
theorem mapM_option_of_isSome {α β : Type} (f : α → Option β) (l : List α)
    (h : ∀ a ∈ l, (f a).isSome = true) :
    ∃ bs, l.mapM f = some bs := by
  induction l with
  | nil => exact ⟨[], rfl⟩
  | cons a t ih =>
    obtain ⟨b, hb⟩ := Option.isSome_iff_exists.mp (h a (by simp))
    obtain ⟨bs, hbs⟩ := ih (fun x hx => h x (by simp [hx]))
    refine ⟨b :: bs, ?_⟩
    rw [List.mapM_cons, hb, hbs]
    rfl

/-- C9: for a route geometry request with at least 2 stops all of which
resolve, when the backend route call fails `route_polyline` returns the
straight-line geometry: `geometry_valid = false`, the legs are the pairwise
haversine distances between consecutive stops with their 50 km/h
estimates, `distance_m` is the sum of the leg distances, and `duration_s`
is `distance_m / 1000 / 50 * 3600`. -/
theorem route_polyline_fallback (sequence : List String) (stops : List RouteStop)
    (decoded : List (ℝ × ℝ))
    (hlen : 2 ≤ sequence.length)
    (hfound : ∀ sid ∈ sequence,
      (stops.find? (fun s => s.id_contacto = sid)).isSome = true) :
    ∃ coordinates,
      sequence.mapM (fun sid => (stops.find? (fun s => s.id_contacto = sid)).map
        (fun s => (s.lon, s.lat))) = some coordinates
      ∧ route_polyline sequence stops Option.none decoded
          = .ok (create_straight_line_route coordinates)
      ∧ (create_straight_line_route coordinates).geometry_valid = false
      ∧ (create_straight_line_route coordinates).legs
          = ((coordinates.zip coordinates.tail).map (fun p =>
              osrm_route_haversine p.1.2 p.1.1 p.2.2 p.2.1)).map
                (fun d => (⟨d, d / 1000 * 3600 / 50, 1⟩ : RouteLeg))
      ∧ (create_straight_line_route coordinates).distance_m
          = (((create_straight_line_route coordinates).legs).map
              (fun l => l.distance_m)).sum
      ∧ (create_straight_line_route coordinates).duration_s
          = (create_straight_line_route coordinates).distance_m / 1000 / 50 * 3600 := by
  obtain ⟨coordinates, hcoords⟩ := mapM_option_of_isSome
    (fun sid => (stops.find? (fun s => s.id_contacto = sid)).map
      (fun s => (s.lon, s.lat))) sequence
    (fun sid hsid => by simpa using hfound sid hsid)
  have hzip_nil : coordinates.length ≤ 1 → coordinates.zip coordinates.tail = [] := by
    intro h1
    cases coordinates with
    | nil => rfl
    | cons c cs =>
      cases cs with
      | nil => rfl
      | cons c2 cs2 => simp at h1
  refine ⟨coordinates, hcoords, ?_, ?_, ?_, ?_, ?_⟩
  · rw [route_polyline]
    rw [if_neg (by
      intro h
      rw [h] at hlen
      simp at hlen)]
    rw [if_neg (by omega)]
    rw [hcoords]
  · by_cases h1 : coordinates.length ≤ 1
    · simp [create_straight_line_route, h1]
    · simp [create_straight_line_route, h1]
  · by_cases h1 : coordinates.length ≤ 1
    · simp [create_straight_line_route, h1, hzip_nil h1]
    · simp [create_straight_line_route, h1]
  · by_cases h1 : coordinates.length ≤ 1
    · simp [create_straight_line_route, h1]
    · simp [create_straight_line_route, h1]
  · by_cases h1 : coordinates.length ≤ 1
    · simp [create_straight_line_route, h1]
    · simp only [create_straight_line_route, if_neg h1]
      set dists := (coordinates.zip coordinates.tail).map (fun p =>
        osrm_route_haversine p.1.2 p.1.1 p.2.2 p.2.1) with hd
      have hdur : ((dists.map (fun d => (⟨d, d / 1000 * 3600 / 50, 1⟩ : RouteLeg))).map
          (fun l => l.duration_s)) = dists.map (fun d => d / 1000 * 3600 / 50) := by
        rw [List.map_map]
        rfl
      have hdist2 : ((dists.map (fun d => (⟨d, d / 1000 * 3600 / 50, 1⟩ : RouteLeg))).map
          (fun l => l.distance_m)) = dists := by
        rw [List.map_map]
        exact List.map_id' dists
      rw [hdur, hdist2, sum_leg_durations]

/-- Two concrete stops for the geometry fallback. -/
noncomputable def exRouteStops : List RouteStop := [⟨"A", 0, 0⟩, ⟨"B", 0, 1⟩]

/-- C9 witness: the fallback theorem applied to a concrete 2-stop request. -/
theorem route_polyline_fallback_witness :
    (2 ≤ (["A", "B"] : List String).length
      ∧ ∀ sid ∈ (["A", "B"] : List String),
        (exRouteStops.find? (fun s => s.id_contacto = sid)).isSome = true)
    ∧ ∃ coordinates,
      (["A", "B"] : List String).mapM (fun sid =>
        (exRouteStops.find? (fun s => s.id_contacto = sid)).map (fun s => (s.lon, s.lat)))
        = some coordinates
      ∧ route_polyline ["A", "B"] exRouteStops Option.none []
          = .ok (create_straight_line_route coordinates) := by
  have hfound : ∀ sid ∈ (["A", "B"] : List String),
      (exRouteStops.find? (fun s => s.id_contacto = sid)).isSome = true := by
    intro sid hsid
    rcases List.mem_cons.mp hsid with h | h
    · simp [h, exRouteStops]
    · simp [List.eq_of_mem_singleton h, exRouteStops]
  refine ⟨⟨by decide, hfound⟩, ?_⟩
  obtain ⟨c, h1, h2, _⟩ := route_polyline_fallback ["A", "B"] exRouteStops [] (by decide) hfound
  exact ⟨c, h1, h2⟩
